import Mathlib

/-!
Shallow embedding of the `payment-engine` repository.

Amounts are `rust_decimal::Decimal` values in the source; all arithmetic the
engine performs on them is exact addition, subtraction and comparison, so we
embed them as exact rationals (`Rat`).  Client ids (`u16`) and transaction
ids (`u32`) are only used as map keys, never arithmetically, so they are
embedded as `Nat`.  The two `HashMap`s of the engine are embedded as
functions to `Option`, which captures exactly the lookup/insert behaviour
the code uses (iteration order is irrelevant to every claim).
-/

namespace Payments

/-- Rust `TxType` from src/lib.rs (the enum in src/main.rs is isomorphic:
`TxAction` with `ChargeBack` spelled differently). -/
inductive TxType where
  | Deposit
  | Withdrawal
  | Dispute
  | Resolve
  | Chargeback
deriving DecidableEq

/-- Rust `UserTransactions` from src/lib.rs (and `UserActions` from src/main.rs,
which has the same fields). `amount` is `Option<Decimal>` in the source. -/
structure UserTransactions where
  tx_type : TxType
  client_id : Nat
  tx_id : Nat
  amount : Option Rat
deriving DecidableEq

/-- Rust `UserAccount` from src/lib.rs and src/main.rs (identical fields). -/
structure UserAccount where
  client_id : Nat
  available : Rat
  held : Rat
  total : Rat
  locked : Bool
deriving DecidableEq

/-- Rust `UserAccount::new`: all decimal fields zero, unlocked. -/
def UserAccount.new (client_id : Nat) : UserAccount :=
  { client_id := client_id, available := 0, held := 0, total := 0, locked := false }

/-- Rust `UserAccount::calculate_total`: `self.total = self.available + self.held`. -/
def UserAccount.calculate_total (a : UserAccount) : UserAccount :=
  { a with total := a.available + a.held }

/-- The engine state: `accounts: HashMap<u16, UserAccount>` and
`actions: HashMap<u16, HashMap<u32, Vec<UserTransactions>>>`, embedded as
functions to `Option`. -/
structure PaymentEngine where
  accounts : Nat → Option UserAccount
  actions : Nat → Nat → Option (List UserTransactions)

/-- Rust `PaymentEngine::new`: both maps empty. -/
def PaymentEngine.new : PaymentEngine :=
  { accounts := fun _ => none, actions := fun _ _ => none }

/-- Point update of the accounts map (a `HashMap` insert). -/
def updAccounts (m : Nat → Option UserAccount) (c : Nat) (a : UserAccount) :
    Nat → Option UserAccount :=
  fun c2 => if c2 = c then some a else m c2

/-- Appending one event to its `(client_id, tx_id)` bucket, creating the
bucket when absent: the
`actions.entry(client).or_insert(..).entry(tx).or_insert(..).push(action)`
chain at the end of `process_action`. -/
def appendAction (m : Nat → Nat → Option (List UserTransactions))
    (c tx : Nat) (a : UserTransactions) :
    Nat → Nat → Option (List UserTransactions) :=
  fun c2 => if c2 = c then
    fun t2 => if t2 = tx then some ((m c tx).getD [] ++ [a]) else m c t2
  else m c2

/-- The `a.tx_type == TxType::Deposit || a.tx_type == TxType::Withdrawal`
predicate used by the dispute/resolve/chargeback lookups in src/lib.rs. -/
def isDW (a : UserTransactions) : Bool :=
  a.tx_type == TxType.Deposit || a.tx_type == TxType.Withdrawal

/-- The `a.tx_type == TxType::Dispute` predicate of the `has_dispute` checks. -/
def isDisputeTx (a : UserTransactions) : Bool :=
  a.tx_type == TxType.Dispute

/-- The amount the lib.rs engine moves for a dispute/resolve/chargeback on an
existing bucket: `acts.iter().find(|a| Deposit || Withdrawal)
.and_then(|a| a.amount).unwrap_or(Decimal::zero())`. -/
def refAmount (acts : List UserTransactions) : Rat :=
  ((acts.find? isDW).bind (fun a => a.amount)).getD 0

/-- Rust `PaymentEngine::process_deposit` (src/lib.rs:85-89): get-or-create the
account, `available += amount.unwrap_or(0)`, recompute total. -/
def process_deposit (e : PaymentEngine) (action : UserTransactions) : PaymentEngine :=
  let acct := (e.accounts action.client_id).getD (UserAccount.new action.client_id)
  let acct := { acct with available := acct.available + action.amount.getD 0 }
  { e with accounts := updAccounts e.accounts action.client_id acct.calculate_total }

/-- Rust `PaymentEngine::process_withdrawal` (src/lib.rs:91-99): only on an
existing account and only when `available >= amount`. -/
def process_withdrawal (e : PaymentEngine) (action : UserTransactions) : PaymentEngine :=
  match e.accounts action.client_id with
  | none => e
  | some acct =>
    let amount := action.amount.getD 0
    if amount ≤ acct.available then
      let acct := { acct with available := acct.available - amount }
      { e with accounts := updAccounts e.accounts action.client_id acct.calculate_total }
    else e

/-- Rust `PaymentEngine::process_dispute` (src/lib.rs:101-119): early return when
the bucket is absent; otherwise the amount is `refAmount` of the bucket and
the account is get-or-created and mutated by
`available -= amount; held += amount`. -/
def process_dispute (e : PaymentEngine) (action : UserTransactions) : PaymentEngine :=
  match e.actions action.client_id action.tx_id with
  | none => e
  | some acts =>
    let amount := refAmount acts
    let acct := (e.accounts action.client_id).getD (UserAccount.new action.client_id)
    let acct := { acct with available := acct.available - amount, held := acct.held + amount }
    { e with accounts := updAccounts e.accounts action.client_id acct.calculate_total }

/-- Rust `PaymentEngine::process_resolve` (src/lib.rs:121-146): requires the
bucket to exist and to contain a Dispute; then on an existing account
`held -= amount; available += amount`. -/
def process_resolve (e : PaymentEngine) (action : UserTransactions) : PaymentEngine :=
  match e.actions action.client_id action.tx_id with
  | none => e
  | some acts =>
    if acts.any isDisputeTx then
      let amount := refAmount acts
      match e.accounts action.client_id with
      | none => e
      | some acct =>
        let acct := { acct with held := acct.held - amount, available := acct.available + amount }
        { e with accounts := updAccounts e.accounts action.client_id acct.calculate_total }
    else e

/-- Rust `PaymentEngine::process_chargeback` (src/lib.rs:148-173): requires the
bucket to exist and to contain a Dispute; then on an existing account
`held -= amount; available -= amount; locked = true`. -/
def process_chargeback (e : PaymentEngine) (action : UserTransactions) : PaymentEngine :=
  match e.actions action.client_id action.tx_id with
  | none => e
  | some acts =>
    if acts.any isDisputeTx then
      let amount := refAmount acts
      match e.accounts action.client_id with
      | none => e
      | some acct =>
        let acct := { acct with held := acct.held - amount,
                                available := acct.available - amount, locked := true }
        { e with accounts := updAccounts e.accounts action.client_id acct.calculate_total }
    else e

/-- Rust `PaymentEngine::process_action` (src/lib.rs:174-189): dispatch on the
event kind, then append the event to its history bucket unconditionally. -/
def process_action (e : PaymentEngine) (action : UserTransactions) : PaymentEngine :=
  let e2 := match action.tx_type with
    | TxType.Deposit => process_deposit e action
    | TxType.Withdrawal => process_withdrawal e action
    | TxType.Dispute => process_dispute e action
    | TxType.Resolve => process_resolve e action
    | TxType.Chargeback => process_chargeback e action
  { e2 with actions := appendAction e2.actions action.client_id action.tx_id action }

/-- Run the lib.rs engine over a finite event sequence from a fresh state. -/
def runLib (l : List UserTransactions) : PaymentEngine :=
  l.foldl process_action PaymentEngine.new

/-- Shorthand for building events. -/
def mkTx (t : TxType) (c tx : Nat) (amt : Option Rat) : UserTransactions :=
  { tx_type := t, client_id := c, tx_id := tx, amount := amt }

/-! The second engine, written inline in src/main.rs.  Its `TxAction` enum and
`UserActions` struct are field-for-field the embedded `TxType` and
`UserTransactions`.  Its Deposit and Withdrawal branches are character-for-
character the lib.rs ones, so they reuse `process_deposit` and
`process_withdrawal`; the Dispute/Resolve/ChargeBack branches differ, and
their early `return`s sit inside `process_action` itself, so they skip the
trailing history append. -/

/-- The `action.tx_action == TxAction::Deposit` predicate of the main.rs
Resolve/ChargeBack branches (they look only for a Deposit, not a Withdrawal). -/
def isDepositTx (a : UserTransactions) : Bool :=
  a.tx_type == TxType.Deposit

/-- The amount the main.rs Dispute branch moves:
`action.last().and_then(|action| action.amount).unwrap_or(Decimal::zero())`
— the last event of the bucket, of any kind. -/
def lastAmount (acts : List UserTransactions) : Rat :=
  (acts.getLast?.bind (fun a => a.amount)).getD 0

/-- Rust `PaymentEngine::process_action` from src/main.rs:75-175. -/
def process_action_main (e : PaymentEngine) (action : UserTransactions) : PaymentEngine :=
  let app := fun (e2 : PaymentEngine) =>
    { e2 with actions := appendAction e2.actions action.client_id action.tx_id action }
  match action.tx_type with
  | TxType.Deposit => app (process_deposit e action)
  | TxType.Withdrawal => app (process_withdrawal e action)
  | TxType.Dispute =>
    match e.accounts action.client_id with
    | none => app e
    | some acct =>
      match e.actions action.client_id action.tx_id with
      | none => e
      | some acts =>
        let amount := lastAmount acts
        let acct := { acct with available := acct.available - amount, held := acct.held + amount }
        app { e with accounts := updAccounts e.accounts action.client_id acct.calculate_total }
  | TxType.Resolve =>
    match e.accounts action.client_id with
    | none => app e
    | some acct =>
      match e.actions action.client_id action.tx_id with
      | none => e
      | some acts =>
        if acts.any isDisputeTx then
          match acts.find? isDepositTx with
          | none => app e
          | some dep =>
            let amount := dep.amount.getD 0
            let acct := { acct with held := acct.held - amount, available := acct.available + amount }
            app { e with accounts := updAccounts e.accounts action.client_id acct.calculate_total }
        else app e
  | TxType.Chargeback =>
    match e.accounts action.client_id with
    | none => app e
    | some acct =>
      match e.actions action.client_id action.tx_id with
      | none => e
      | some acts =>
        if acts.any isDisputeTx then
          match acts.find? isDepositTx with
          | none => app e
          | some dep =>
            let amount := dep.amount.getD 0
            let acct := { acct with held := acct.held - amount,
                                    available := acct.available - amount, locked := true }
            app { e with accounts := updAccounts e.accounts action.client_id acct.calculate_total }
        else app e

/-- Run the main.rs engine over a finite event sequence from a fresh state. -/
def runMain (l : List UserTransactions) : PaymentEngine :=
  l.foldl process_action_main PaymentEngine.new

/-! Output formatting (claim C9).  `rust_decimal::Decimal` is an integer
mantissa scaled by a power of ten; its `Display` implementation prints the
mantissa's digits with the decimal point inserted `scale` places from the
right, preserving trailing zeros (`Decimal::new(1000, 1)` prints `100.0`),
and with an explicit precision `{:.4}` it prints exactly four fractional
digits, rescaling the value to scale 4.  `round_sf(4)` rounds to four
significant figures, keeping the value's natural scale.  The exact
mid-point tie policy of the library's rounding plays no role in any claim
below (every claim is about the count of fractional digits), so rounding is
modelled as round-half-away-from-zero. -/

/-- A `rust_decimal::Decimal`: `mantissa / 10 ^ scale`. -/
structure Dec where
  mantissa : Int
  scale : Nat
deriving DecidableEq

/-- The rational value a `Dec` denotes. -/
def Dec.toRat (d : Dec) : Rat := (d.mantissa : Rat) / ((10 : Rat) ^ d.scale)

/-- The character of a digit value (`k % 10`). -/
def digitChar (k : Nat) : Char := Char.ofNat (48 + k % 10)

/-- Digit-extraction loop (fuel-based so it reduces in the kernel). -/
def natDigitsCore : Nat → Nat → List Char → List Char
  | 0, _, acc => acc
  | fuel + 1, n, acc => if n = 0 then acc else natDigitsCore fuel (n / 10) (digitChar n :: acc)

/-- The decimal digits of a natural number, most significant first. -/
def natDigits (n : Nat) : List Char :=
  if n = 0 then ['0'] else natDigitsCore (n + 1) n []

/-- Left-pad a digit list with zeros up to length `k`. -/
def padZeros (l : List Char) (k : Nat) : List Char :=
  List.replicate (k - l.length) '0' ++ l

/-- Rust `Display` of a `Dec` (as a character list): sign, integer digits, and —
when `scale > 0` — a point followed by exactly `scale` fractional digits. -/
def displayDec (d : Dec) : List Char :=
  let sign : List Char := if d.mantissa < 0 then ['-'] else []
  let ds := natDigits d.mantissa.natAbs
  if d.scale = 0 then sign ++ ds
  else
    let ds2 := padZeros ds (d.scale + 1)
    sign ++ (ds2.take (ds2.length - d.scale) ++ '.' :: ds2.drop (ds2.length - d.scale))

/-- Division of a mantissa by `10 ^ k` rounding half away from zero. -/
def roundAtDiv (m : Int) (p : Nat) : Int :=
  let n := m.natAbs
  let q := n / p
  let q2 := if p ≤ 2 * (n % p) then q + 1 else q
  if m < 0 then -(q2 : Int) else (q2 : Int)

/-- Rescale a `Dec` to exactly `k` fractional digits (the rescaling `{:.4}`
formatting performs). -/
def rescaleTo (d : Dec) (k : Nat) : Dec :=
  if d.scale ≤ k then ⟨d.mantissa * (10 : Int) ^ (k - d.scale), k⟩
  else ⟨roundAtDiv d.mantissa (10 ^ (d.scale - k)), k⟩

/-- Rust `Decimal::round_sf(n)`: round to `n` significant figures; a value with
at most `n` significant digits is returned unchanged. -/
def roundSf (d : Dec) (n : Nat) : Dec :=
  let digits := (natDigits d.mantissa.natAbs).length
  if digits ≤ n then d
  else
    let drop := digits - n
    if drop ≤ d.scale then ⟨roundAtDiv d.mantissa (10 ^ drop), d.scale - drop⟩
    else ⟨roundAtDiv d.mantissa (10 ^ drop) * (10 : Int) ^ (drop - d.scale), 0⟩

/-- Rust `serialize_to_four_places` from src/lib.rs:29-35: `format!("{:.4}", t)`. -/
def fmtLib (d : Dec) : List Char := displayDec (rescaleTo d 4)

/-- Rust `serialize_to_four_places` from src/main.rs:26-32: `t.round_sf(4)`
serialized with the value's natural scale. -/
def fmtMain (d : Dec) : List Char := displayDec (roundSf d 4)

/-- Number of fractional digits of a rendered decimal: the characters after
the last point, zero when there is no point. -/
def fracCount (s : List Char) : Nat :=
  if '.' ∈ s then (s.reverse.takeWhile (fun c => !(c == '.'))).length else 0

/-- The per-account invariant of the spec, on a bare accounts map. -/
def AccMapInv (m : Nat → Option UserAccount) : Prop :=
  ∀ c acct, m c = some acct → acct.total = acct.available + acct.held

/-- The per-account invariant `total == available + held` on an engine. -/
def AccInv (e : PaymentEngine) : Prop :=
  AccMapInv e.accounts

/-! Helper lemmas: field computations and one characterization lemma per
branch of the two `process_action` functions. -/

theorem calculate_total_available (a : UserAccount) :
    a.calculate_total.available = a.available := rfl

theorem calculate_total_held (a : UserAccount) :
    a.calculate_total.held = a.held := rfl

theorem calculate_total_locked (a : UserAccount) :
    a.calculate_total.locked = a.locked := rfl

theorem calculate_total_total (a : UserAccount) :
    a.calculate_total.total = a.available + a.held := rfl

theorem updAccounts_self (m : Nat → Option UserAccount) (c : Nat) (a : UserAccount) :
    updAccounts m c a c = some a := by
  simp [updAccounts]

theorem updAccounts_other (m : Nat → Option UserAccount) (c : Nat) (a : UserAccount)
    (c2 : Nat) (h : c2 ≠ c) : updAccounts m c a c2 = m c2 := by
  simp [updAccounts, h]

theorem accounts_deposit (e : PaymentEngine) (a : UserTransactions)
    (ht : a.tx_type = TxType.Deposit) :
    (process_action e a).accounts = updAccounts e.accounts a.client_id
      (UserAccount.calculate_total
        { (e.accounts a.client_id).getD (UserAccount.new a.client_id) with
          available := ((e.accounts a.client_id).getD (UserAccount.new a.client_id)).available
            + a.amount.getD 0 }) := by
  simp [process_action, ht, process_deposit]

theorem accounts_withdrawal_noacct (e : PaymentEngine) (a : UserTransactions)
    (ht : a.tx_type = TxType.Withdrawal) (ha : e.accounts a.client_id = none) :
    (process_action e a).accounts = e.accounts := by
  simp [process_action, ht, process_withdrawal, ha]

theorem accounts_withdrawal_insufficient (e : PaymentEngine) (a : UserTransactions)
    (acct : UserAccount) (ht : a.tx_type = TxType.Withdrawal)
    (ha : e.accounts a.client_id = some acct) (hlt : ¬ a.amount.getD 0 ≤ acct.available) :
    (process_action e a).accounts = e.accounts := by
  simp [process_action, ht, process_withdrawal, ha, hlt]

theorem accounts_withdrawal_ok (e : PaymentEngine) (a : UserTransactions)
    (acct : UserAccount) (ht : a.tx_type = TxType.Withdrawal)
    (ha : e.accounts a.client_id = some acct) (hle : a.amount.getD 0 ≤ acct.available) :
    (process_action e a).accounts = updAccounts e.accounts a.client_id
      (UserAccount.calculate_total { acct with available := acct.available - a.amount.getD 0 }) := by
  simp [process_action, ht, process_withdrawal, ha, hle]

theorem accounts_dispute_nobucket (e : PaymentEngine) (a : UserTransactions)
    (ht : a.tx_type = TxType.Dispute) (hb : e.actions a.client_id a.tx_id = none) :
    (process_action e a).accounts = e.accounts := by
  simp [process_action, ht, process_dispute, hb]

theorem accounts_dispute (e : PaymentEngine) (a : UserTransactions)
    (acts : List UserTransactions) (ht : a.tx_type = TxType.Dispute)
    (hb : e.actions a.client_id a.tx_id = some acts) :
    (process_action e a).accounts = updAccounts e.accounts a.client_id
      (UserAccount.calculate_total
        { (e.accounts a.client_id).getD (UserAccount.new a.client_id) with
          available := ((e.accounts a.client_id).getD (UserAccount.new a.client_id)).available
            - refAmount acts,
          held := ((e.accounts a.client_id).getD (UserAccount.new a.client_id)).held
            + refAmount acts }) := by
  simp [process_action, ht, process_dispute, hb]

theorem accounts_resolve_nobucket (e : PaymentEngine) (a : UserTransactions)
    (ht : a.tx_type = TxType.Resolve) (hb : e.actions a.client_id a.tx_id = none) :
    (process_action e a).accounts = e.accounts := by
  simp [process_action, ht, process_resolve, hb]

theorem accounts_resolve_nodispute (e : PaymentEngine) (a : UserTransactions)
    (acts : List UserTransactions) (ht : a.tx_type = TxType.Resolve)
    (hb : e.actions a.client_id a.tx_id = some acts)
    (hnd : acts.any isDisputeTx = false) :
    (process_action e a).accounts = e.accounts := by
  simp [process_action, ht, process_resolve, hb, hnd]

theorem accounts_resolve_noacct (e : PaymentEngine) (a : UserTransactions)
    (acts : List UserTransactions) (ht : a.tx_type = TxType.Resolve)
    (hb : e.actions a.client_id a.tx_id = some acts)
    (hd : acts.any isDisputeTx = true) (ha : e.accounts a.client_id = none) :
    (process_action e a).accounts = e.accounts := by
  simp [process_action, ht, process_resolve, hb, hd, ha]

theorem accounts_resolve (e : PaymentEngine) (a : UserTransactions)
    (acts : List UserTransactions) (acct : UserAccount) (ht : a.tx_type = TxType.Resolve)
    (hb : e.actions a.client_id a.tx_id = some acts)
    (hd : acts.any isDisputeTx = true) (ha : e.accounts a.client_id = some acct) :
    (process_action e a).accounts = updAccounts e.accounts a.client_id
      (UserAccount.calculate_total
        { acct with held := acct.held - refAmount acts,
                    available := acct.available + refAmount acts }) := by
  simp [process_action, ht, process_resolve, hb, hd, ha]

theorem accounts_chargeback_nobucket (e : PaymentEngine) (a : UserTransactions)
    (ht : a.tx_type = TxType.Chargeback) (hb : e.actions a.client_id a.tx_id = none) :
    (process_action e a).accounts = e.accounts := by
  simp [process_action, ht, process_chargeback, hb]

theorem accounts_chargeback_nodispute (e : PaymentEngine) (a : UserTransactions)
    (acts : List UserTransactions) (ht : a.tx_type = TxType.Chargeback)
    (hb : e.actions a.client_id a.tx_id = some acts)
    (hnd : acts.any isDisputeTx = false) :
    (process_action e a).accounts = e.accounts := by
  simp [process_action, ht, process_chargeback, hb, hnd]

theorem accounts_chargeback_noacct (e : PaymentEngine) (a : UserTransactions)
    (acts : List UserTransactions) (ht : a.tx_type = TxType.Chargeback)
    (hb : e.actions a.client_id a.tx_id = some acts)
    (hd : acts.any isDisputeTx = true) (ha : e.accounts a.client_id = none) :
    (process_action e a).accounts = e.accounts := by
  simp [process_action, ht, process_chargeback, hb, hd, ha]

theorem accounts_chargeback (e : PaymentEngine) (a : UserTransactions)
    (acts : List UserTransactions) (acct : UserAccount) (ht : a.tx_type = TxType.Chargeback)
    (hb : e.actions a.client_id a.tx_id = some acts)
    (hd : acts.any isDisputeTx = true) (ha : e.accounts a.client_id = some acct) :
    (process_action e a).accounts = updAccounts e.accounts a.client_id
      (UserAccount.calculate_total
        { acct with held := acct.held - refAmount acts,
                    available := acct.available - refAmount acts, locked := true }) := by
  simp [process_action, ht, process_chargeback, hb, hd, ha]

theorem accounts_main_dispute (e : PaymentEngine) (a : UserTransactions)
    (acts : List UserTransactions) (acct : UserAccount) (ht : a.tx_type = TxType.Dispute)
    (ha : e.accounts a.client_id = some acct)
    (hb : e.actions a.client_id a.tx_id = some acts) :
    (process_action_main e a).accounts = updAccounts e.accounts a.client_id
      (UserAccount.calculate_total
        { acct with available := acct.available - lastAmount acts,
                    held := acct.held + lastAmount acts }) := by
  simp [process_action_main, ht, ha, hb]

theorem accounts_main_resolve_nodeposit (e : PaymentEngine) (a : UserTransactions)
    (acts : List UserTransactions) (acct : UserAccount) (ht : a.tx_type = TxType.Resolve)
    (ha : e.accounts a.client_id = some acct)
    (hb : e.actions a.client_id a.tx_id = some acts)
    (hd : acts.any isDisputeTx = true) (hnod : acts.find? isDepositTx = none) :
    (process_action_main e a).accounts = e.accounts := by
  simp [process_action_main, ht, ha, hb, hd, hnod]

theorem accounts_main_resolve (e : PaymentEngine) (a : UserTransactions)
    (acts : List UserTransactions) (acct : UserAccount) (dep : UserTransactions)
    (ht : a.tx_type = TxType.Resolve)
    (ha : e.accounts a.client_id = some acct)
    (hb : e.actions a.client_id a.tx_id = some acts)
    (hd : acts.any isDisputeTx = true) (hdep : acts.find? isDepositTx = some dep) :
    (process_action_main e a).accounts = updAccounts e.accounts a.client_id
      (UserAccount.calculate_total
        { acct with held := acct.held - dep.amount.getD 0,
                    available := acct.available + dep.amount.getD 0 }) := by
  simp [process_action_main, ht, ha, hb, hd, hdep]

theorem accounts_main_chargeback_nodeposit (e : PaymentEngine) (a : UserTransactions)
    (acts : List UserTransactions) (acct : UserAccount)
    (ht : a.tx_type = TxType.Chargeback)
    (ha : e.accounts a.client_id = some acct)
    (hb : e.actions a.client_id a.tx_id = some acts)
    (hd : acts.any isDisputeTx = true) (hnod : acts.find? isDepositTx = none) :
    (process_action_main e a).accounts = e.accounts := by
  simp [process_action_main, ht, ha, hb, hd, hnod]

theorem accounts_main_chargeback (e : PaymentEngine) (a : UserTransactions)
    (acts : List UserTransactions) (acct : UserAccount) (dep : UserTransactions)
    (ht : a.tx_type = TxType.Chargeback)
    (ha : e.accounts a.client_id = some acct)
    (hb : e.actions a.client_id a.tx_id = some acts)
    (hd : acts.any isDisputeTx = true) (hdep : acts.find? isDepositTx = some dep) :
    (process_action_main e a).accounts = updAccounts e.accounts a.client_id
      (UserAccount.calculate_total
        { acct with held := acct.held - dep.amount.getD 0,
                    available := acct.available - dep.amount.getD 0, locked := true }) := by
  simp [process_action_main, ht, ha, hb, hd, hdep]

theorem AccMapInv_upd (m : Nat → Option UserAccount) (c0 : Nat) (b : UserAccount)
    (h : AccMapInv m) : AccMapInv (updAccounts m c0 b.calculate_total) := by
  intro c acct hc
  unfold updAccounts at hc
  split at hc
  · cases hc
    rfl
  · exact h c acct hc

theorem AccInv_step (e : PaymentEngine) (a : UserTransactions) (h : AccInv e) :
    AccInv (process_action e a) := by
  cases ht : a.tx_type
  case Deposit =>
    unfold AccInv
    rw [accounts_deposit e a ht]
    exact AccMapInv_upd _ _ _ h
  case Withdrawal =>
    unfold AccInv
    cases ha : e.accounts a.client_id with
    | none => rw [accounts_withdrawal_noacct e a ht ha]; exact h
    | some acct =>
      by_cases hle : a.amount.getD 0 ≤ acct.available
      · rw [accounts_withdrawal_ok e a acct ht ha hle]
        exact AccMapInv_upd _ _ _ h
      · rw [accounts_withdrawal_insufficient e a acct ht ha hle]; exact h
  case Dispute =>
    unfold AccInv
    cases hb : e.actions a.client_id a.tx_id with
    | none => rw [accounts_dispute_nobucket e a ht hb]; exact h
    | some acts =>
      rw [accounts_dispute e a acts ht hb]
      exact AccMapInv_upd _ _ _ h
  case Resolve =>
    unfold AccInv
    cases hb : e.actions a.client_id a.tx_id with
    | none => rw [accounts_resolve_nobucket e a ht hb]; exact h
    | some acts =>
      cases hd : acts.any isDisputeTx with
      | false => rw [accounts_resolve_nodispute e a acts ht hb hd]; exact h
      | true =>
        cases ha : e.accounts a.client_id with
        | none => rw [accounts_resolve_noacct e a acts ht hb hd ha]; exact h
        | some acct =>
          rw [accounts_resolve e a acts acct ht hb hd ha]
          exact AccMapInv_upd _ _ _ h
  case Chargeback =>
    unfold AccInv
    cases hb : e.actions a.client_id a.tx_id with
    | none => rw [accounts_chargeback_nobucket e a ht hb]; exact h
    | some acts =>
      cases hd : acts.any isDisputeTx with
      | false => rw [accounts_chargeback_nodispute e a acts ht hb hd]; exact h
      | true =>
        cases ha : e.accounts a.client_id with
        | none => rw [accounts_chargeback_noacct e a acts ht hb hd ha]; exact h
        | some acct =>
          rw [accounts_chargeback e a acts acct ht hb hd ha]
          exact AccMapInv_upd _ _ _ h

theorem AccInv_foldl (l : List UserTransactions) :
    ∀ e : PaymentEngine, AccInv e → AccInv (l.foldl process_action e) := by
  induction l with
  | nil => intro e h; exact h
  | cons a l ih => intro e h; exact ih _ (AccInv_step e a h)

theorem AccInv_runLib (l : List UserTransactions) : AccInv (runLib l) :=
  AccInv_foldl l PaymentEngine.new (by intro c acct h; simp [PaymentEngine.new] at h)

/-- C2: for every finite sequence of events applied to a fresh engine, after
each `process_action` call, every account in the accounts map satisfies
`total == available + held`.  (Every prefix of a sequence is itself a
sequence, so quantifying over all sequences covers every intermediate
state.) -/
theorem C2_total_eq_available_add_held (l : List UserTransactions) (c : Nat)
    (acct : UserAccount) (h : (runLib l).accounts c = some acct) :
    acct.total = acct.available + acct.held :=
  AccInv_runLib l c acct h

/-- Witness for C2 at the one-deposit sequence. -/
theorem C2_total_witness :
    (runLib [mkTx TxType.Deposit 1 1 (some 100)]).accounts 1 =
      some { client_id := 1, available := 100, held := 0, total := 100, locked := false } ∧
    ({ client_id := 1, available := 100, held := 0, total := 100, locked := false } :
      UserAccount).total =
    ({ client_id := 1, available := 100, held := 0, total := 100, locked := false } :
      UserAccount).available +
    ({ client_id := 1, available := 100, held := 0, total := 100, locked := false } :
      UserAccount).held :=
  ⟨by simp [runLib, process_action, process_deposit, PaymentEngine.new, updAccounts,
      appendAction, UserAccount.new, UserAccount.calculate_total, mkTx],
   C2_total_eq_available_add_held [mkTx TxType.Deposit 1 1 (some 100)] 1 _
    (by simp [runLib, process_action, process_deposit, PaymentEngine.new, updAccounts,
      appendAction, UserAccount.new, UserAccount.calculate_total, mkTx])⟩

/-- C1 counterexample: the scenario deposit(1,1,100) → dispute(1,1) →
chargeback(1,1) does NOT yield `available = 0, total = 0`: the chargeback
debits both `held` and `available`, so the account ends at
`available = -100, held = 0, total = -100, locked = true` (exactly what the
repository's own `test_chargeback_locks_account` asserts). -/
theorem C1_counterexample :
    (runLib [mkTx TxType.Deposit 1 1 (some 100), mkTx TxType.Dispute 1 1 none,
        mkTx TxType.Chargeback 1 1 none]).accounts 1 =
      some { client_id := 1, available := -100, held := 0, total := -100, locked := true } ∧
    (runLib [mkTx TxType.Deposit 1 1 (some 100), mkTx TxType.Dispute 1 1 none,
        mkTx TxType.Chargeback 1 1 none]).accounts 1 ≠
      some { client_id := 1, available := 0, held := 0, total := 0, locked := true } := by
  constructor <;>
    simp [runLib, process_action, process_deposit, process_withdrawal, process_dispute,
      process_resolve, process_chargeback, PaymentEngine.new, updAccounts, appendAction,
      refAmount, isDW, isDisputeTx, UserAccount.new, UserAccount.calculate_total, mkTx]

/-- C1 amended: the scenario deposit(1,1,100) → dispute(1,1) →
chargeback(1,1) yields for account 1 `available = -100.0, held = 0.0,
total = -100.0, locked = true`. -/
theorem C1_chargeback_scenario :
    (runLib [mkTx TxType.Deposit 1 1 (some 100), mkTx TxType.Dispute 1 1 none,
        mkTx TxType.Chargeback 1 1 none]).accounts 1 =
      some { client_id := 1, available := -100, held := 0, total := -100, locked := true } := by
  simp [runLib, process_action, process_deposit, process_withdrawal, process_dispute,
    process_resolve, process_chargeback, PaymentEngine.new, updAccounts, appendAction,
    refAmount, isDW, isDisputeTx, UserAccount.new, UserAccount.calculate_total, mkTx]

theorem locked_step (e : PaymentEngine) (a : UserTransactions) (c : Nat)
    (acct : UserAccount) (h : e.accounts c = some acct) (hl : acct.locked = true) :
    ∃ acct', (process_action e a).accounts c = some acct' ∧ acct'.locked = true := by
  by_cases hc : c = a.client_id
  case neg =>
    refine ⟨acct, ?_, hl⟩
    cases ht : a.tx_type
    case Deposit =>
      rw [accounts_deposit e a ht, updAccounts_other _ _ _ _ hc, h]
    case Withdrawal =>
      cases ha : e.accounts a.client_id with
      | none => rw [accounts_withdrawal_noacct e a ht ha, h]
      | some acct2 =>
        by_cases hle : a.amount.getD 0 ≤ acct2.available
        · rw [accounts_withdrawal_ok e a acct2 ht ha hle, updAccounts_other _ _ _ _ hc, h]
        · rw [accounts_withdrawal_insufficient e a acct2 ht ha hle, h]
    case Dispute =>
      cases hb : e.actions a.client_id a.tx_id with
      | none => rw [accounts_dispute_nobucket e a ht hb, h]
      | some acts => rw [accounts_dispute e a acts ht hb, updAccounts_other _ _ _ _ hc, h]
    case Resolve =>
      cases hb : e.actions a.client_id a.tx_id with
      | none => rw [accounts_resolve_nobucket e a ht hb, h]
      | some acts =>
        cases hd : acts.any isDisputeTx with
        | false => rw [accounts_resolve_nodispute e a acts ht hb hd, h]
        | true =>
          cases ha : e.accounts a.client_id with
          | none => rw [accounts_resolve_noacct e a acts ht hb hd ha, h]
          | some acct2 =>
            rw [accounts_resolve e a acts acct2 ht hb hd ha, updAccounts_other _ _ _ _ hc, h]
    case Chargeback =>
      cases hb : e.actions a.client_id a.tx_id with
      | none => rw [accounts_chargeback_nobucket e a ht hb, h]
      | some acts =>
        cases hd : acts.any isDisputeTx with
        | false => rw [accounts_chargeback_nodispute e a acts ht hb hd, h]
        | true =>
          cases ha : e.accounts a.client_id with
          | none => rw [accounts_chargeback_noacct e a acts ht hb hd ha, h]
          | some acct2 =>
            rw [accounts_chargeback e a acts acct2 ht hb hd ha, updAccounts_other _ _ _ _ hc, h]
  case pos =>
    subst hc
    cases ht : a.tx_type
    case Deposit =>
      rw [accounts_deposit e a ht, updAccounts_self]
      exact ⟨_, rfl, by simp [UserAccount.calculate_total, h, hl]⟩
    case Withdrawal =>
      by_cases hle : a.amount.getD 0 ≤ acct.available
      · rw [accounts_withdrawal_ok e a acct ht h hle, updAccounts_self]
        exact ⟨_, rfl, by simp [UserAccount.calculate_total, hl]⟩
      · rw [accounts_withdrawal_insufficient e a acct ht h hle, h]
        exact ⟨acct, rfl, hl⟩
    case Dispute =>
      cases hb : e.actions a.client_id a.tx_id with
      | none => rw [accounts_dispute_nobucket e a ht hb, h]; exact ⟨acct, rfl, hl⟩
      | some acts =>
        rw [accounts_dispute e a acts ht hb, updAccounts_self]
        exact ⟨_, rfl, by simp [UserAccount.calculate_total, h, hl]⟩
    case Resolve =>
      cases hb : e.actions a.client_id a.tx_id with
      | none => rw [accounts_resolve_nobucket e a ht hb, h]; exact ⟨acct, rfl, hl⟩
      | some acts =>
        cases hd : acts.any isDisputeTx with
        | false => rw [accounts_resolve_nodispute e a acts ht hb hd, h]; exact ⟨acct, rfl, hl⟩
        | true =>
          rw [accounts_resolve e a acts acct ht hb hd h, updAccounts_self]
          exact ⟨_, rfl, by simp [UserAccount.calculate_total, hl]⟩
    case Chargeback =>
      cases hb : e.actions a.client_id a.tx_id with
      | none => rw [accounts_chargeback_nobucket e a ht hb, h]; exact ⟨acct, rfl, hl⟩
      | some acts =>
        cases hd : acts.any isDisputeTx with
        | false => rw [accounts_chargeback_nodispute e a acts ht hb hd, h]; exact ⟨acct, rfl, hl⟩
        | true =>
          rw [accounts_chargeback e a acts acct ht hb hd h, updAccounts_self]
          exact ⟨_, rfl, by simp [UserAccount.calculate_total]⟩

theorem locked_foldl (l : List UserTransactions) :
    ∀ (e : PaymentEngine) (c : Nat) (acct : UserAccount), e.accounts c = some acct →
      acct.locked = true →
      ∃ acct', (l.foldl process_action e).accounts c = some acct' ∧ acct'.locked = true := by
  induction l with
  | nil => intro e c acct h hl; exact ⟨acct, h, hl⟩
  | cons a l ih =>
    intro e c acct h hl
    obtain ⟨acct2, h2, hl2⟩ := locked_step e a c acct h hl
    exact ih _ c acct2 h2 hl2

/-- C6: the locked flag is monotonic over sequences: if after processing
`l1` some account is locked, then after processing any extension
`l1 ++ l2` that account still exists and is still locked — no later apply
call ever resets `locked` to false. -/
theorem C6_locked_monotonic (l1 l2 : List UserTransactions) (c : Nat) (acct : UserAccount)
    (h : (runLib l1).accounts c = some acct) (hl : acct.locked = true) :
    ∃ acct', (runLib (l1 ++ l2)).accounts c = some acct' ∧ acct'.locked = true := by
  rw [runLib, List.foldl_append]
  exact locked_foldl l2 (runLib l1) c acct h hl

/-- Witness for C6: the chargeback scenario locks account 1 and a further
deposit leaves it locked. -/
theorem C6_locked_witness :
    (runLib [mkTx TxType.Deposit 1 1 (some 100), mkTx TxType.Dispute 1 1 none,
        mkTx TxType.Chargeback 1 1 none]).accounts 1 =
      some { client_id := 1, available := -100, held := 0, total := -100, locked := true } ∧
    (∃ acct', (runLib ([mkTx TxType.Deposit 1 1 (some 100), mkTx TxType.Dispute 1 1 none,
        mkTx TxType.Chargeback 1 1 none] ++ [mkTx TxType.Deposit 1 2 (some 5)])).accounts 1 =
      some acct' ∧ acct'.locked = true) :=
  ⟨by simp [runLib, process_action, process_deposit, process_withdrawal, process_dispute,
      process_resolve, process_chargeback, PaymentEngine.new, updAccounts, appendAction,
      refAmount, isDW, isDisputeTx, UserAccount.new, UserAccount.calculate_total, mkTx],
   C6_locked_monotonic [mkTx TxType.Deposit 1 1 (some 100), mkTx TxType.Dispute 1 1 none,
      mkTx TxType.Chargeback 1 1 none] [mkTx TxType.Deposit 1 2 (some 5)] 1
      { client_id := 1, available := -100, held := 0, total := -100, locked := true }
    (by simp [runLib, process_action, process_deposit, process_withdrawal, process_dispute,
      process_resolve, process_chargeback, PaymentEngine.new, updAccounts, appendAction,
      refAmount, isDW, isDisputeTx, UserAccount.new, UserAccount.calculate_total, mkTx])
    rfl⟩

/-- C5: a Withdrawal applies only when the client's account exists and has
`available >= amount`; then it decreases `available` by the amount and
recomputes `total`, touching no other account; in every other case it
leaves every account unchanged; and it never drives a nonnegative
`available` negative. -/
theorem C5_withdrawal (e : PaymentEngine) (a : UserTransactions)
    (ht : a.tx_type = TxType.Withdrawal) :
    (∀ acct, e.accounts a.client_id = some acct → a.amount.getD 0 ≤ acct.available →
      ∃ acct', (process_action e a).accounts a.client_id = some acct' ∧
        acct'.available = acct.available - a.amount.getD 0 ∧
        acct'.held = acct.held ∧
        acct'.total = acct'.available + acct'.held ∧
        acct'.locked = acct.locked ∧
        ∀ c, c ≠ a.client_id → (process_action e a).accounts c = e.accounts c) ∧
    (∀ acct, e.accounts a.client_id = some acct → ¬ a.amount.getD 0 ≤ acct.available →
      (process_action e a).accounts = e.accounts) ∧
    (e.accounts a.client_id = none → (process_action e a).accounts = e.accounts) ∧
    (∀ c acct acct', e.accounts c = some acct → 0 ≤ acct.available →
      (process_action e a).accounts c = some acct' → 0 ≤ acct'.available) := by
  refine ⟨?_, ?_, ?_, ?_⟩
  · intro acct ha hle
    rw [accounts_withdrawal_ok e a acct ht ha hle]
    refine ⟨_, updAccounts_self _ _ _, rfl, rfl, rfl, rfl, ?_⟩
    intro c hc
    exact updAccounts_other _ _ _ _ hc
  · intro acct ha hlt
    exact accounts_withdrawal_insufficient e a acct ht ha hlt
  · intro ha
    exact accounts_withdrawal_noacct e a ht ha
  · intro c acct acct' hc h0 hc'
    cases ha : e.accounts a.client_id with
    | none =>
      rw [accounts_withdrawal_noacct e a ht ha, hc] at hc'
      cases hc'
      exact h0
    | some acct2 =>
      by_cases hle : a.amount.getD 0 ≤ acct2.available
      · by_cases hcc : c = a.client_id
        · subst hcc
          rw [accounts_withdrawal_ok e a acct2 ht ha hle, updAccounts_self] at hc'
          cases hc'
          rw [hc] at ha
          cases ha
          simp [UserAccount.calculate_total]
          linarith
        · rw [accounts_withdrawal_ok e a acct2 ht ha hle,
            updAccounts_other _ _ _ _ hcc, hc] at hc'
          cases hc'
          exact h0
      · rw [accounts_withdrawal_insufficient e a acct2 ht ha hle, hc] at hc'
        cases hc'
        exact h0

/-- Witness for C5 at deposit(1,1,100) followed by withdrawal(1,2,30). -/
theorem C5_withdrawal_witness :
    (runLib [mkTx TxType.Deposit 1 1 (some 100)]).accounts 1 =
      some { client_id := 1, available := 100, held := 0, total := 100, locked := false } ∧
    (∃ acct', (process_action (runLib [mkTx TxType.Deposit 1 1 (some 100)])
        (mkTx TxType.Withdrawal 1 2 (some 30))).accounts 1 = some acct' ∧
      acct'.available = (100 : Rat) - 30 ∧
      acct'.held = 0 ∧
      acct'.total = acct'.available + acct'.held ∧
      acct'.locked = false ∧
      ∀ c, c ≠ 1 → (process_action (runLib [mkTx TxType.Deposit 1 1 (some 100)])
        (mkTx TxType.Withdrawal 1 2 (some 30))).accounts c =
          (runLib [mkTx TxType.Deposit 1 1 (some 100)]).accounts c) :=
  ⟨by simp [runLib, process_action, process_deposit, PaymentEngine.new, updAccounts,
      appendAction, UserAccount.new, UserAccount.calculate_total, mkTx],
   (C5_withdrawal (runLib [mkTx TxType.Deposit 1 1 (some 100)])
      (mkTx TxType.Withdrawal 1 2 (some 30)) rfl).1
    { client_id := 1, available := 100, held := 0, total := 100, locked := false }
    (by simp [runLib, process_action, process_deposit, PaymentEngine.new, updAccounts,
      appendAction, UserAccount.new, UserAccount.calculate_total, mkTx])
    (by norm_num [mkTx])⟩

/-- C7: a Resolve or Chargeback whose `(clientId, txId)` bucket contains no
Dispute event (in particular, any bucket that exists but has no prior
Dispute) leaves the whole accounts map unchanged. -/
theorem C7_resolve_chargeback_need_dispute (e : PaymentEngine) (a : UserTransactions)
    (hk : a.tx_type = TxType.Resolve ∨ a.tx_type = TxType.Chargeback)
    (hnd : ∀ acts, e.actions a.client_id a.tx_id = some acts →
      acts.any isDisputeTx = false) :
    (process_action e a).accounts = e.accounts := by
  rcases hk with ht | ht
  · cases hb : e.actions a.client_id a.tx_id with
    | none => exact accounts_resolve_nobucket e a ht hb
    | some acts => exact accounts_resolve_nodispute e a acts ht hb (hnd acts hb)
  · cases hb : e.actions a.client_id a.tx_id with
    | none => exact accounts_chargeback_nobucket e a ht hb
    | some acts => exact accounts_chargeback_nodispute e a acts ht hb (hnd acts hb)

/-- Witness for C7: a Resolve on a deposited-but-never-disputed transaction
changes nothing. -/
theorem C7_resolve_chargeback_witness :
    (process_action (runLib [mkTx TxType.Deposit 1 1 (some 100)])
        (mkTx TxType.Resolve 1 1 none)).accounts =
      (runLib [mkTx TxType.Deposit 1 1 (some 100)]).accounts :=
  C7_resolve_chargeback_need_dispute (runLib [mkTx TxType.Deposit 1 1 (some 100)])
    (mkTx TxType.Resolve 1 1 none) (Or.inl rfl)
    (by
      intro acts h
      simp [runLib, process_action, process_deposit, PaymentEngine.new, updAccounts,
        appendAction, UserAccount.new, UserAccount.calculate_total, mkTx] at h
      subst h
      decide)

theorem refAmount_of_noDW (acts : List UserTransactions) (h : acts.find? isDW = none) :
    refAmount acts = 0 := by
  simp [refAmount, h]

theorem calc_total_id (acct : UserAccount) (h : acct.total = acct.available + acct.held) :
    acct.calculate_total = acct := by
  cases acct
  simp_all [UserAccount.calculate_total]

/-- C3 counterexample: a second Dispute on `(1,1)` after a first Dispute on
`(1,1)` references a bucket with no prior Deposit/Withdrawal, yet it is not
a no-op on account state: it creates a fresh account for client 1. -/
theorem C3_counterexample :
    (runLib [mkTx TxType.Dispute 1 1 none]).accounts 1 = none ∧
    (runLib [mkTx TxType.Dispute 1 1 none]).actions 1 1 = some [mkTx TxType.Dispute 1 1 none] ∧
    ([mkTx TxType.Dispute 1 1 none].find? isDW = none) ∧
    (runLib [mkTx TxType.Dispute 1 1 none, mkTx TxType.Dispute 1 1 none]).accounts 1 =
      some (UserAccount.new 1) := by
  refine ⟨?_, ?_, by decide, ?_⟩ <;>
    simp [runLib, process_action, process_dispute, PaymentEngine.new, updAccounts,
      appendAction, refAmount, isDW, UserAccount.new, UserAccount.calculate_total, mkTx]

/-- C3 amended: on a reachable state (any state satisfying the
total-invariant), a Dispute/Resolve/Chargeback whose bucket contains no
Deposit/Withdrawal behaves as follows: with no bucket at all it is a no-op;
a Resolve is always a no-op; a Dispute on an existing bucket leaves every
existing account unchanged but creates a zeroed account for the client when
absent; a Chargeback on an existing bucket containing a Dispute leaves all
balance fields unchanged but sets `locked = true` on the client's existing
account (and is a no-op when the bucket has no Dispute). -/
theorem C3_amended (e : PaymentEngine) (a : UserTransactions)
    (hinv : AccInv e)
    (hnoDW : ∀ acts, e.actions a.client_id a.tx_id = some acts → acts.find? isDW = none) :
    ((a.tx_type = TxType.Dispute ∨ a.tx_type = TxType.Resolve ∨
        a.tx_type = TxType.Chargeback) →
      e.actions a.client_id a.tx_id = none → (process_action e a).accounts = e.accounts) ∧
    (a.tx_type = TxType.Resolve → (process_action e a).accounts = e.accounts) ∧
    (a.tx_type = TxType.Dispute → ∀ acts, e.actions a.client_id a.tx_id = some acts →
      ∀ c, (process_action e a).accounts c =
        if c = a.client_id ∧ e.accounts c = none then some (UserAccount.new c)
        else e.accounts c) ∧
    (a.tx_type = TxType.Chargeback → ∀ acts, e.actions a.client_id a.tx_id = some acts →
      acts.any isDisputeTx = true →
      ∀ c, (process_action e a).accounts c =
        if c = a.client_id then (e.accounts c).map (fun acct => { acct with locked := true })
        else e.accounts c) ∧
    (a.tx_type = TxType.Chargeback → ∀ acts, e.actions a.client_id a.tx_id = some acts →
      acts.any isDisputeTx = false → (process_action e a).accounts = e.accounts) := by
  refine ⟨?_, ?_, ?_, ?_, ?_⟩
  · rintro (ht | ht | ht) hb
    · exact accounts_dispute_nobucket e a ht hb
    · exact accounts_resolve_nobucket e a ht hb
    · exact accounts_chargeback_nobucket e a ht hb
  · intro ht
    cases hb : e.actions a.client_id a.tx_id with
    | none => exact accounts_resolve_nobucket e a ht hb
    | some acts =>
      cases hd : acts.any isDisputeTx with
      | false => exact accounts_resolve_nodispute e a acts ht hb hd
      | true =>
        cases ha : e.accounts a.client_id with
        | none => exact accounts_resolve_noacct e a acts ht hb hd ha
        | some acct =>
          rw [accounts_resolve e a acts acct ht hb hd ha]
          have hz : refAmount acts = 0 := refAmount_of_noDW acts (hnoDW acts hb)
          have hrec : ({ acct with
                          held := acct.held - refAmount acts,
                          available := acct.available + refAmount acts } : UserAccount)
              = acct := by
            rw [hz]
            cases acct
            simp
          rw [hrec, calc_total_id acct (hinv a.client_id acct ha)]
          funext c
          unfold updAccounts
          split
          next hcc => rw [hcc, ha]
          next hcc => rfl
  · intro ht acts hb c
    rw [accounts_dispute e a acts ht hb]
    have hz : refAmount acts = 0 := refAmount_of_noDW acts (hnoDW acts hb)
    by_cases hcc : c = a.client_id
    · subst hcc
      rw [updAccounts_self]
      cases ha : e.accounts a.client_id with
      | none =>
        simp [hz, UserAccount.new, UserAccount.calculate_total]
      | some acct =>
        have hq := hinv a.client_id acct ha
        cases acct
        simp_all [UserAccount.calculate_total, hz]
    · rw [updAccounts_other _ _ _ _ hcc]
      simp [hcc]
  · intro ht acts hb hd c
    have hz : refAmount acts = 0 := refAmount_of_noDW acts (hnoDW acts hb)
    cases ha : e.accounts a.client_id with
    | none =>
      rw [accounts_chargeback_noacct e a acts ht hb hd ha]
      by_cases hcc : c = a.client_id
      · subst hcc
        rw [ha]
        simp [ha]
      · simp [hcc]
    | some acct =>
      rw [accounts_chargeback e a acts acct ht hb hd ha]
      have hq := hinv a.client_id acct ha
      have hrec : UserAccount.calculate_total
          { acct with
             held := acct.held - refAmount acts,
             available := acct.available - refAmount acts,
             locked := true } = { acct with locked := true } := by
        rw [hz]
        cases acct
        simp_all [UserAccount.calculate_total]
      rw [hrec]
      by_cases hcc : c = a.client_id
      · subst hcc
        rw [updAccounts_self]
        simp [ha]
      · rw [updAccounts_other _ _ _ _ hcc]
        simp [hcc]
  · intro ht acts hb hd
    exact accounts_chargeback_nodispute e a acts ht hb hd

/-- Witness for C3: a second Dispute on a Deposit/Withdrawal-free bucket,
applied to the reachable state after one Dispute, creates the absent
account (per the amended characterization). -/
theorem C3_amended_witness :
    (process_action (runLib [mkTx TxType.Dispute 1 1 none])
        (mkTx TxType.Dispute 1 1 none)).accounts 1 =
      if 1 = (mkTx TxType.Dispute 1 1 none).client_id ∧
          (runLib [mkTx TxType.Dispute 1 1 none]).accounts 1 = none
      then some (UserAccount.new 1)
      else (runLib [mkTx TxType.Dispute 1 1 none]).accounts 1 :=
  (C3_amended (runLib [mkTx TxType.Dispute 1 1 none]) (mkTx TxType.Dispute 1 1 none)
      (AccInv_runLib _)
      (by
        intro acts h
        simp [runLib, process_action, process_dispute, PaymentEngine.new, appendAction,
          mkTx] at h
        subst h
        decide)).2.2.1 rfl [mkTx TxType.Dispute 1 1 none]
    (by simp [runLib, process_action, process_dispute, PaymentEngine.new, appendAction, mkTx])
    1

/-- C4 counterexample: a duplicated Dispute is NOT absorbed as a no-op.
After deposit(1,1,100) and dispute(1,1) the bucket for `(1,1)` already
contains a Dispute, yet a second dispute(1,1) moves another 100 from
`available` to `held` (ending at `available = -100, held = 200`). -/
theorem C4_counterexample :
    (runLib [mkTx TxType.Deposit 1 1 (some 100), mkTx TxType.Dispute 1 1 none]).accounts 1 =
      some { client_id := 1, available := 0, held := 100, total := 100, locked := false } ∧
    (runLib [mkTx TxType.Deposit 1 1 (some 100), mkTx TxType.Dispute 1 1 none]).actions 1 1 =
      some [mkTx TxType.Deposit 1 1 (some 100), mkTx TxType.Dispute 1 1 none] ∧
    (runLib [mkTx TxType.Deposit 1 1 (some 100), mkTx TxType.Dispute 1 1 none,
        mkTx TxType.Dispute 1 1 none]).accounts 1 =
      some { client_id := 1, available := -100, held := 200, total := 100, locked := false } ∧
    (runLib [mkTx TxType.Deposit 1 1 (some 100), mkTx TxType.Dispute 1 1 none,
        mkTx TxType.Dispute 1 1 none]).accounts 1 ≠
      (runLib [mkTx TxType.Deposit 1 1 (some 100), mkTx TxType.Dispute 1 1 none]).accounts 1 := by
  refine ⟨?_, ?_, ?_, ?_⟩ <;>
    simp [runLib, process_action, process_deposit, process_dispute, PaymentEngine.new,
      updAccounts, appendAction, refAmount, isDW, UserAccount.new,
      UserAccount.calculate_total, mkTx]
  norm_num

/-- C4 amended: the engine does not track the per-transaction state
machine; it only re-checks the bucket preconditions.  Hence on a bucket that
already contains a Dispute (the duplicate / post-terminal situation), a
further Dispute again moves the referenced amount from `available` to
`held`, and a Resolve or Chargeback is re-applied in full whenever the
bucket contains any Dispute, regardless of any Resolve/Chargeback already
recorded there. -/
theorem C4_amended (e : PaymentEngine) (a : UserTransactions) (acts : List UserTransactions)
    (hb : e.actions a.client_id a.tx_id = some acts)
    (hdup : acts.any isDisputeTx = true) :
    (a.tx_type = TxType.Dispute →
      ∃ acct', (process_action e a).accounts a.client_id = some acct' ∧
        acct'.available = ((e.accounts a.client_id).getD
          (UserAccount.new a.client_id)).available - refAmount acts ∧
        acct'.held = ((e.accounts a.client_id).getD
          (UserAccount.new a.client_id)).held + refAmount acts) ∧
    (a.tx_type = TxType.Resolve → ∀ acct, e.accounts a.client_id = some acct →
      ∃ acct', (process_action e a).accounts a.client_id = some acct' ∧
        acct'.held = acct.held - refAmount acts ∧
        acct'.available = acct.available + refAmount acts) ∧
    (a.tx_type = TxType.Chargeback → ∀ acct, e.accounts a.client_id = some acct →
      ∃ acct', (process_action e a).accounts a.client_id = some acct' ∧
        acct'.held = acct.held - refAmount acts ∧
        acct'.available = acct.available - refAmount acts ∧ acct'.locked = true) := by
  refine ⟨?_, ?_, ?_⟩
  · intro ht
    rw [accounts_dispute e a acts ht hb, updAccounts_self]
    exact ⟨_, rfl, rfl, rfl⟩
  · intro ht acct ha
    rw [accounts_resolve e a acts acct ht hb hdup ha, updAccounts_self]
    exact ⟨_, rfl, rfl, rfl⟩
  · intro ht acct ha
    rw [accounts_chargeback e a acts acct ht hb hdup ha, updAccounts_self]
    exact ⟨_, rfl, rfl, rfl, rfl⟩

/-- Witness for C4: the duplicated dispute of the counterexample scenario,
driven through the amended theorem. -/
theorem C4_amended_witness :
    ∃ acct', (process_action
        (runLib [mkTx TxType.Deposit 1 1 (some 100), mkTx TxType.Dispute 1 1 none])
        (mkTx TxType.Dispute 1 1 none)).accounts 1 = some acct' ∧
      acct'.available = (((runLib [mkTx TxType.Deposit 1 1 (some 100),
        mkTx TxType.Dispute 1 1 none]).accounts 1).getD (UserAccount.new 1)).available -
        refAmount [mkTx TxType.Deposit 1 1 (some 100), mkTx TxType.Dispute 1 1 none] ∧
      acct'.held = (((runLib [mkTx TxType.Deposit 1 1 (some 100),
        mkTx TxType.Dispute 1 1 none]).accounts 1).getD (UserAccount.new 1)).held +
        refAmount [mkTx TxType.Deposit 1 1 (some 100), mkTx TxType.Dispute 1 1 none] :=
  (C4_amended (runLib [mkTx TxType.Deposit 1 1 (some 100), mkTx TxType.Dispute 1 1 none])
      (mkTx TxType.Dispute 1 1 none)
      [mkTx TxType.Deposit 1 1 (some 100), mkTx TxType.Dispute 1 1 none]
      (by simp [runLib, process_action, process_deposit, process_dispute, PaymentEngine.new,
        updAccounts, appendAction, refAmount, isDW, UserAccount.new,
        UserAccount.calculate_total, mkTx])
      (by decide)).1 rfl

/-- C8 counterexample: the main.rs engine does not use the first
Deposit/Withdrawal of the bucket.  First scenario: after deposit(1,1,100)
and dispute(1,1), the bucket's first Deposit/Withdrawal has amount 100, yet
a second dispute(1,1) moves 0 (its Dispute branch uses the LAST bucket
entry of any kind, here the amount-less Dispute), leaving the account
unchanged.  Second scenario: after deposit(1,1,50), withdrawal(1,2,30) and
dispute(1,2), the bucket of tx 2 holds a Withdrawal of 30 (its first
Deposit/Withdrawal) and a Dispute, yet resolve(1,2) moves nothing — the
main.rs Resolve branch looks only for a Deposit and ignores Withdrawals. -/
theorem C8_counterexample :
    (runMain [mkTx TxType.Deposit 1 1 (some 100), mkTx TxType.Dispute 1 1 none]).accounts 1 =
      some { client_id := 1, available := 0, held := 100, total := 100, locked := false } ∧
    (runMain [mkTx TxType.Deposit 1 1 (some 100), mkTx TxType.Dispute 1 1 none]).actions 1 1 =
      some [mkTx TxType.Deposit 1 1 (some 100), mkTx TxType.Dispute 1 1 none] ∧
    ((([mkTx TxType.Deposit 1 1 (some 100),
        mkTx TxType.Dispute 1 1 none].find? isDW).bind (fun t => t.amount)).getD 0
      = (100 : Rat)) ∧
    (runMain [mkTx TxType.Deposit 1 1 (some 100), mkTx TxType.Dispute 1 1 none,
        mkTx TxType.Dispute 1 1 none]).accounts 1 =
      some { client_id := 1, available := 0, held := 100, total := 100, locked := false } ∧
    (runMain [mkTx TxType.Deposit 1 1 (some 50), mkTx TxType.Withdrawal 1 2 (some 30),
        mkTx TxType.Dispute 1 2 none]).accounts 1 =
      some { client_id := 1, available := -10, held := 30, total := 20, locked := false } ∧
    (runMain [mkTx TxType.Deposit 1 1 (some 50), mkTx TxType.Withdrawal 1 2 (some 30),
        mkTx TxType.Dispute 1 2 none]).actions 1 2 =
      some [mkTx TxType.Withdrawal 1 2 (some 30), mkTx TxType.Dispute 1 2 none] ∧
    ((([mkTx TxType.Withdrawal 1 2 (some 30),
        mkTx TxType.Dispute 1 2 none].find? isDW).bind (fun t => t.amount)).getD 0
      = (30 : Rat)) ∧
    (runMain [mkTx TxType.Deposit 1 1 (some 50), mkTx TxType.Withdrawal 1 2 (some 30),
        mkTx TxType.Dispute 1 2 none, mkTx TxType.Resolve 1 2 none]).accounts 1 =
      some { client_id := 1, available := -10, held := 30, total := 20, locked := false } := by
  have h1 : (TxType.Withdrawal == TxType.Deposit) = false := by decide
  have h2 : (TxType.Dispute == TxType.Deposit) = false := by decide
  refine ⟨?_, ?_, by simp [isDW, mkTx], ?_, ?_, ?_, by simp [isDW, mkTx], ?_⟩ <;>
    norm_num [runMain, process_action_main, process_deposit, process_withdrawal,
      PaymentEngine.new, updAccounts, appendAction, lastAmount, isDepositTx, isDisputeTx,
      List.find?, h1, h2, UserAccount.new, UserAccount.calculate_total, mkTx]

/-- C8 amended: in the lib.rs engine the amount moved by a
Dispute/Resolve/Chargeback on an existing bucket is the amount of the first
Deposit or Withdrawal found in the bucket in insertion order, with a
missing amount treated as zero; the main.rs engine does not follow this
rule: its Dispute branch moves the amount of the last event of the bucket,
of any kind (missing amount again treated as zero), and its
Resolve/Chargeback branches look only for the first Deposit (`isDepositTx`),
ignoring Withdrawals — when the bucket holds no Deposit they move
nothing. -/
theorem C8_amended (e : PaymentEngine) (a : UserTransactions) (acts : List UserTransactions)
    (hb : e.actions a.client_id a.tx_id = some acts) :
    refAmount acts = ((acts.find? isDW).bind (fun t => t.amount)).getD 0 ∧
    (a.tx_type = TxType.Dispute →
      ∃ acct', (process_action e a).accounts a.client_id = some acct' ∧
        acct'.available = ((e.accounts a.client_id).getD
          (UserAccount.new a.client_id)).available - refAmount acts ∧
        acct'.held = ((e.accounts a.client_id).getD
          (UserAccount.new a.client_id)).held + refAmount acts) ∧
    (a.tx_type = TxType.Resolve → acts.any isDisputeTx = true →
      ∀ acct, e.accounts a.client_id = some acct →
      ∃ acct', (process_action e a).accounts a.client_id = some acct' ∧
        acct'.held = acct.held - refAmount acts ∧
        acct'.available = acct.available + refAmount acts) ∧
    (a.tx_type = TxType.Chargeback → acts.any isDisputeTx = true →
      ∀ acct, e.accounts a.client_id = some acct →
      ∃ acct', (process_action e a).accounts a.client_id = some acct' ∧
        acct'.held = acct.held - refAmount acts ∧
        acct'.available = acct.available - refAmount acts ∧ acct'.locked = true) ∧
    (a.tx_type = TxType.Dispute → ∀ acct, e.accounts a.client_id = some acct →
      ∃ acct', (process_action_main e a).accounts a.client_id = some acct' ∧
        acct'.available = acct.available - lastAmount acts ∧
        acct'.held = acct.held + lastAmount acts ∧
        lastAmount acts = ((acts.getLast?).bind (fun t => t.amount)).getD 0) ∧
    (a.tx_type = TxType.Resolve → acts.any isDisputeTx = true →
      ∀ acct, e.accounts a.client_id = some acct →
      (∀ dep, acts.find? isDepositTx = some dep →
        ∃ acct', (process_action_main e a).accounts a.client_id = some acct' ∧
          acct'.held = acct.held - dep.amount.getD 0 ∧
          acct'.available = acct.available + dep.amount.getD 0) ∧
      (acts.find? isDepositTx = none →
        (process_action_main e a).accounts = e.accounts)) ∧
    (a.tx_type = TxType.Chargeback → acts.any isDisputeTx = true →
      ∀ acct, e.accounts a.client_id = some acct →
      (∀ dep, acts.find? isDepositTx = some dep →
        ∃ acct', (process_action_main e a).accounts a.client_id = some acct' ∧
          acct'.held = acct.held - dep.amount.getD 0 ∧
          acct'.available = acct.available - dep.amount.getD 0 ∧ acct'.locked = true) ∧
      (acts.find? isDepositTx = none →
        (process_action_main e a).accounts = e.accounts)) := by
  refine ⟨rfl, ?_, ?_, ?_, ?_, ?_, ?_⟩
  · intro ht
    rw [accounts_dispute e a acts ht hb, updAccounts_self]
    exact ⟨_, rfl, rfl, rfl⟩
  · intro ht hd acct ha
    rw [accounts_resolve e a acts acct ht hb hd ha, updAccounts_self]
    exact ⟨_, rfl, rfl, rfl⟩
  · intro ht hd acct ha
    rw [accounts_chargeback e a acts acct ht hb hd ha, updAccounts_self]
    exact ⟨_, rfl, rfl, rfl, rfl⟩
  · intro ht acct ha
    rw [accounts_main_dispute e a acts acct ht ha hb, updAccounts_self]
    exact ⟨_, rfl, rfl, rfl, rfl⟩
  · intro ht hd acct ha
    constructor
    · intro dep hdep
      rw [accounts_main_resolve e a acts acct dep ht ha hb hd hdep, updAccounts_self]
      exact ⟨_, rfl, rfl, rfl⟩
    · intro hnod
      exact accounts_main_resolve_nodeposit e a acts acct ht ha hb hd hnod
  · intro ht hd acct ha
    constructor
    · intro dep hdep
      rw [accounts_main_chargeback e a acts acct dep ht ha hb hd hdep, updAccounts_self]
      exact ⟨_, rfl, rfl, rfl, rfl⟩
    · intro hnod
      exact accounts_main_chargeback_nodeposit e a acts acct ht ha hb hd hnod

/-- Witness for C8: disputing deposit(1,1,100) in the lib.rs engine moves
the first (and only) Deposit's amount. -/
theorem C8_amended_witness :
    ∃ acct', (process_action (runLib [mkTx TxType.Deposit 1 1 (some 100)])
        (mkTx TxType.Dispute 1 1 none)).accounts 1 = some acct' ∧
      acct'.available = (((runLib [mkTx TxType.Deposit 1 1 (some 100)]).accounts 1).getD
        (UserAccount.new 1)).available - refAmount [mkTx TxType.Deposit 1 1 (some 100)] ∧
      acct'.held = (((runLib [mkTx TxType.Deposit 1 1 (some 100)]).accounts 1).getD
        (UserAccount.new 1)).held + refAmount [mkTx TxType.Deposit 1 1 (some 100)] :=
  (C8_amended (runLib [mkTx TxType.Deposit 1 1 (some 100)]) (mkTx TxType.Dispute 1 1 none)
      [mkTx TxType.Deposit 1 1 (some 100)]
      (by simp [runLib, process_action, process_deposit, PaymentEngine.new, updAccounts,
        appendAction, UserAccount.new, UserAccount.calculate_total, mkTx])).2.1 rfl

theorem step_eq_dw (e : PaymentEngine) (a : UserTransactions)
    (h : a.tx_type = TxType.Deposit ∨ a.tx_type = TxType.Withdrawal) :
    process_action e a = process_action_main e a := by
  rcases h with ht | ht <;> simp [process_action, process_action_main, ht]

theorem foldl_eq_dw (l : List UserTransactions) :
    ∀ e : PaymentEngine,
      (∀ a ∈ l, a.tx_type = TxType.Deposit ∨ a.tx_type = TxType.Withdrawal) →
      l.foldl process_action e = l.foldl process_action_main e := by
  induction l with
  | nil => intro e _; rfl
  | cons a l ih =>
    intro e h
    simp only [List.foldl_cons]
    rw [step_eq_dw e a (h a (List.mem_cons_self a l))]
    exact ih _ (fun b hb => h b (List.mem_cons_of_mem a hb))

/-- C10 counterexample: the two engines do not compute identical account
maps on every sequence.  On [dispute(1,1), dispute(1,1)] the lib.rs engine
creates a zeroed account for client 1 (its second dispute finds the bucket
left by the first and get-or-creates the account), while the main.rs engine
creates no account at all. -/
theorem C10_counterexample :
    (runLib [mkTx TxType.Dispute 1 1 none, mkTx TxType.Dispute 1 1 none]).accounts 1 =
      some (UserAccount.new 1) ∧
    (runMain [mkTx TxType.Dispute 1 1 none, mkTx TxType.Dispute 1 1 none]).accounts 1 =
      none ∧
    (runLib [mkTx TxType.Dispute 1 1 none, mkTx TxType.Dispute 1 1 none]).accounts 1 ≠
      (runMain [mkTx TxType.Dispute 1 1 none, mkTx TxType.Dispute 1 1 none]).accounts 1 := by
  refine ⟨?_, ?_, ?_⟩ <;>
    simp [runLib, runMain, process_action, process_action_main, process_deposit,
      process_withdrawal, process_dispute, process_resolve, process_chargeback,
      PaymentEngine.new, updAccounts, appendAction, refAmount, lastAmount, isDW,
      isDisputeTx, isDepositTx, UserAccount.new, UserAccount.calculate_total, mkTx]

/-- C10 amended: the two engines agree on every sequence made of Deposit
and Withdrawal events only (those branches are identical); sequences
containing Dispute/Resolve/Chargeback events may diverge. -/
theorem C10_deposit_withdrawal_equiv (l : List UserTransactions)
    (h : ∀ a ∈ l, a.tx_type = TxType.Deposit ∨ a.tx_type = TxType.Withdrawal) :
    (runLib l).accounts = (runMain l).accounts := by
  unfold runLib runMain
  rw [foldl_eq_dw l PaymentEngine.new h]

/-- Witness for C10 on a deposit-then-withdrawal sequence. -/
theorem C10_equiv_witness :
    (runLib [mkTx TxType.Deposit 1 1 (some 100),
        mkTx TxType.Withdrawal 1 2 (some 30)]).accounts =
      (runMain [mkTx TxType.Deposit 1 1 (some 100),
        mkTx TxType.Withdrawal 1 2 (some 30)]).accounts :=
  C10_deposit_withdrawal_equiv _ (by decide)

theorem digitChar_ne_dot (k : Nat) : digitChar k ≠ '.' := by
  have h10 : ∀ r : Fin 10, Char.ofNat (48 + r.val) ≠ '.' := by decide
  have hk : k % 10 < 10 := Nat.mod_lt _ (by norm_num)
  exact h10 ⟨k % 10, hk⟩

theorem natDigitsCore_ne_dot (fuel : Nat) :
    ∀ (n : Nat) (acc : List Char), (∀ c ∈ acc, c ≠ '.') →
      ∀ c ∈ natDigitsCore fuel n acc, c ≠ '.' := by
  induction fuel with
  | zero => intro n acc hacc c hc; exact hacc c hc
  | succ fuel ih =>
    intro n acc hacc c hc
    simp only [natDigitsCore] at hc
    split at hc
    · exact hacc c hc
    · refine ih (n / 10) (digitChar n :: acc) ?_ c hc
      intro d hd
      rcases List.mem_cons.mp hd with h | h
      · subst h; exact digitChar_ne_dot n
      · exact hacc d h

theorem natDigits_ne_dot (n : Nat) : ∀ c ∈ natDigits n, c ≠ '.' := by
  unfold natDigits
  split
  · intro c hc
    simp at hc
    subst hc
    decide
  · exact natDigitsCore_ne_dot (n + 1) n [] (by intro c hc; simp at hc)

theorem takeWhile_append_stop (p : Char → Bool) :
    ∀ (l1 : List Char) (x : Char) (l2 : List Char),
      (∀ c ∈ l1, p c = true) → p x = false →
      (l1 ++ x :: l2).takeWhile p = l1 := by
  intro l1
  induction l1 with
  | nil => intro x l2 _ hx; simp [List.takeWhile_cons, hx]
  | cons a l ih =>
    intro x l2 h hx
    have ha : p a = true := h a (List.mem_cons_self a l)
    simp [List.takeWhile_cons, ha,
      ih x l2 (fun c hc => h c (List.mem_cons_of_mem a hc)) hx]

theorem fracCount_core (sign A F : List Char) (hF : ∀ c ∈ F, c ≠ '.') :
    fracCount (sign ++ (A ++ '.' :: F)) = F.length := by
  unfold fracCount
  rw [if_pos (by simp)]
  have hrev : (sign ++ (A ++ '.' :: F)).reverse =
      F.reverse ++ '.' :: (A.reverse ++ sign.reverse) := by
    simp
  rw [hrev, takeWhile_append_stop (fun c => !(c == '.')) F.reverse '.'
    (A.reverse ++ sign.reverse)
    (fun c hc => by
      have h1 : c ≠ '.' := hF c (List.mem_reverse.mp hc)
      simp [h1])
    (by decide)]
  exact List.length_reverse F

theorem displayDec_scale_pos (d : Dec) (h : d.scale ≠ 0) :
    fracCount (displayDec d) = d.scale := by
  simp only [displayDec]
  rw [if_neg h]
  rw [fracCount_core]
  · have hL : (padZeros (natDigits d.mantissa.natAbs) (d.scale + 1)).length =
        (d.scale + 1 - (natDigits d.mantissa.natAbs).length) +
          (natDigits d.mantissa.natAbs).length := by
      simp [padZeros]
    rw [List.length_drop]
    omega
  · intro c hc
    have hc2 : c ∈ padZeros (natDigits d.mantissa.natAbs) (d.scale + 1) :=
      List.drop_subset _ _ hc
    rcases List.mem_append.mp hc2 with h1 | h1
    · have h2 := List.eq_of_mem_replicate h1
      subst h2
      decide
    · exact natDigits_ne_dot _ c h1

theorem rescaleTo_scale (d : Dec) (k : Nat) : (rescaleTo d k).scale = k := by
  unfold rescaleTo
  split <;> rfl

/-- C9 counterexample: the decimal 100.0 (mantissa 1000, scale 1 — the
value of `available` after deposit(1,1,100.0)) is rendered by the main.rs
serializer (`round_sf(4)`, natural scale) with ONE fractional digit, not
four; the lib.rs serializer renders it with four. -/
theorem C9_counterexample :
    Dec.toRat ⟨1000, 1⟩ = (100 : Rat) ∧
    fracCount (fmtMain ⟨1000, 1⟩) = 1 ∧
    fracCount (fmtMain ⟨1000, 1⟩) ≠ 4 ∧
    fracCount (fmtLib ⟨1000, 1⟩) = 4 := by
  refine ⟨by norm_num [Dec.toRat], by decide, by decide, by decide⟩

/-- C9 amended: the lib.rs serializer (`format!("\x7b:.4\x7d", t)`) renders
every decimal with exactly four fractional digits; the main.rs binary's
serializer (`round_sf(4)` at natural scale) does not — e.g. 100.0 renders
with a single fractional digit. -/
theorem C9_amended :
    (∀ d : Dec, fracCount (fmtLib d) = 4) ∧ fracCount (fmtMain ⟨1000, 1⟩) = 1 := by
  constructor
  · intro d
    unfold fmtLib
    rw [displayDec_scale_pos _ (by rw [rescaleTo_scale]; norm_num), rescaleTo_scale]
  · decide

end Payments
